import Mathlib

/-!
Verification of the BetEstimate prediction engine (`server.js`).

The definitions below are a shallow embedding of the prediction core:
team-name normalization and the seed-rating resolver (`normTeam`,
`canonicalKey`, `seedOf`), the league baseline resolver (`leagueBaseGpm`),
the Poisson outcome model (`fac`, `poisPmf`, `probs1X2`, `sharpen3`),
the expected-goals estimator (`expectedGoalsAdvanced`) and the market
selector (`choiceFrom`).  JavaScript numbers are modelled as real numbers,
ratings and table constants as rationals, the `ALIAS` Map as an
association list, and the stable three-element sort used by the selector
as an explicit stable insertion.  The `SEED_ELO` object read is modelled
with JS property semantics including the `Object.prototype` chain
(`JSVal`/`objGetSeed`): a key like `constructor` resolves to the
inherited constructor function rather than missing, and the `NaN` pair
that such a hit produces in the estimator is modelled as `none`.
-/

/-- ASCII lower-casing of a character, plus the one non-ASCII letter
(`Ü`) that occurs in the league patterns. -/
def lowerChar (c : Char) : Char :=
  if 'A' ≤ c ∧ c ≤ 'Z' then Char.ofNat (c.toNat + 32)
  else if c = 'Ü' then 'ü' else c

/-- `s.toLowerCase()` on the alphabet relevant to the tables. -/
def lowerStr (s : String) : String := ⟨s.data.map lowerChar⟩

/-- Is the character one of `[a-z0-9]`? -/
def isAlnumLower (c : Char) : Bool :=
  ('a' ≤ c && c ≤ 'z') || ('0' ≤ c && c ≤ '9')

/-- Replace every character outside `[a-z0-9]` by a space
(the per-character part of `replace(/[^a-z0-9]+/g,' ')`). -/
def toSpaces (l : List Char) : List Char :=
  l.map (fun c => if isAlnumLower c then c else ' ')

/-- Collapse runs of spaces to a single space (the `+` of the regex). -/
def squeeze : List Char → List Char
  | [] => []
  | a :: rest =>
    match rest with
    | [] => [a]
    | b :: _ =>
      if a = ' ' && b = ' ' then squeeze rest else a :: squeeze rest

/-- Drop leading spaces. -/
def dropSpacesLeft (l : List Char) : List Char := l.dropWhile (· = ' ')

/-- `trim`: drop leading and trailing spaces. -/
def trimSpaces (l : List Char) : List Char :=
  (dropSpacesLeft (dropSpacesLeft l.reverse).reverse)

/-- `normTeam` from `server.js`: lower-case, replace runs of
non-`[a-z0-9]` by a single space, trim. -/
def normTeam (s : String) : String :=
  ⟨trimSpaces (squeeze (toSpaces (lowerStr s).data))⟩

/-- The `ALIAS` map from `server.js` (verbose name → canonical key). -/
def ALIAS : List (String × String) :=
  [("paris saint germain", "psg"), ("paris saint germain fc", "psg"),
   ("manchester city fc", "manchester city"), ("manchester united fc", "manchester united"),
   ("fc barcelona", "barcelona"), ("fc bayern munich", "bayern munich"),
   ("fc internazionale milano", "inter"), ("fc internazionale", "inter"),
   ("juventus fc", "juventus"), ("ac milan", "milan"),
   ("atletico de madrid", "atletico madrid"), ("ssc napoli", "napoli"),
   ("as roma", "roma"), ("tottenham hotspur", "tottenham"),
   ("fenerbahce istanbul", "fenerbahce"), ("galatasaray sk", "galatasaray"), ("besiktas jk", "besiktas"),
   ("arsenal fc", "arsenal"), ("chelsea fc", "chelsea"), ("liverpool fc", "liverpool"),
   ("real madrid cf", "real madrid"), ("borussia dortmund", "dortmund"),
   ("atletico madrid", "atletico madrid"), ("sevilla fc", "sevilla"), ("valencia cf", "valencia"),
   ("rcd mallorca", "mallorca"), ("athletic bilbao", "athletic bilbao"), ("real betis", "betis"),
   ("rsc anderlecht", "anderlecht"), ("olympique lyonnais", "lyon"), ("olympique marseille", "marseille"),
   ("as monaco", "monaco"), ("lille osc", "lille"), ("ajax amsterdam", "ajax"), ("psv eindhoven", "psv"),
   ("fc porto", "porto"), ("sporting lisbon", "sporting cp"), ("sl benfica", "benfica")]

/-- `canonicalKey` from `server.js`: `ALIAS.get(normTeam name) || normTeam name`. -/
def canonicalKey (name : String) : String :=
  let n := normTeam name
  ((ALIAS.lookup n).getD n)

/-- The `SEED_ELO` seed-rating table from `server.js`. -/
def SEED_ELO : List (String × ℚ) :=
  [("psg", 1850), ("paris saint germain", 1850), ("real madrid", 1850), ("barcelona", 1820),
   ("manchester city", 1880), ("liverpool", 1820), ("arsenal", 1800), ("chelsea", 1750),
   ("manchester united", 1760), ("bayern munich", 1900), ("inter", 1820), ("juventus", 1800),
   ("milan", 1780), ("atletico madrid", 1800), ("napoli", 1780), ("roma", 1740), ("tottenham", 1760),
   ("galatasaray", 1700), ("fenerbahce", 1680), ("besiktas", 1650), ("trabzonspor", 1620),
   ("dortmund", 1780), ("sevilla", 1720), ("valencia", 1700), ("betis", 1720), ("lyon", 1720),
   ("marseille", 1730), ("monaco", 1740), ("lille", 1710), ("ajax", 1750), ("psv", 1740),
   ("porto", 1760), ("benfica", 1770), ("sporting cp", 1750)]

/-- A value produced by a JavaScript property read on the `SEED_ELO`
object: either an own (numeric) entry, or a value inherited from
`Object.prototype` — `SEED_ELO['constructor']` is the `Object`
constructor function, which is not nullish, so `??` does not fall
through to the default. -/
inductive JSVal where
  | num : ℚ → JSVal
  | protoFun : JSVal
deriving DecidableEq

/-- The numeric content of a seed read; `none` for the inherited
constructor function (whose arithmetic in JS yields `NaN`). -/
def JSVal.toNum : JSVal → Option ℚ
  | JSVal.num q => some q
  | JSVal.protoFun => none

/-- The JS property read `SEED_ELO[k]` with prototype-chain semantics:
own entries first, then `Object.prototype`.  The resolver only ever looks
up keys produced by `normTeam` (lower-case alphanumerics and spaces) or
`ALIAS` values; among `Object.prototype`'s property names
(`constructor`, `hasOwnProperty`, `toString`, `valueOf`, ...) only
`constructor` survives that normalization, so it is the only reachable
inherited property.  `none` models JS `undefined`. -/
def objGetSeed (k : String) : Option JSVal :=
  match SEED_ELO.lookup k with
  | some q => some (JSVal.num q)
  | none => if k = "constructor" then some JSVal.protoFun else none

/-- `seedOf` from `server.js`:
`SEED_ELO[canonicalKey(name)] ?? SEED_ELO[normTeam(name)] ?? 1500`,
with JS object-property semantics (the prototype chain included): a name
normalizing to the key `constructor` resolves to the inherited `Object`
constructor function, not to the 1500 default. -/
def seedOf (name : String) : JSVal :=
  (objGetSeed (canonicalKey name)).getD ((objGetSeed (normTeam name)).getD (JSVal.num 1500))

/-- Is `pat` a prefix of `hay` (character lists)? -/
def isPrefOf : List Char → List Char → Bool
  | [], _ => true
  | _ :: _, [] => false
  | a :: as, b :: bs => a == b && isPrefOf as bs

/-- Does `pat` occur as a contiguous substring of `hay`
(JS `String.prototype.includes`)? -/
def containsSubList (hay pat : List Char) : Bool :=
  match hay with
  | [] => pat.isEmpty
  | _ :: t => isPrefOf pat hay || containsSubList t pat

/-- `hay.includes(pat)` on strings. -/
def strContainsSub (hay pat : String) : Bool := containsSubList hay.data pat.data

/-- `leagueBaseGpm` from `server.js`: lower-case the label and test the
fixed ordered substring patterns; default `2.65`. -/
def leagueBaseGpm (league : String) : ℚ :=
  let k := lowerStr league
  if strContainsSub k "super lig" || strContainsSub k "süper lig" then 2.7
  else if strContainsSub k "premier" then 2.9
  else if strContainsSub k "la liga" then 2.6
  else if strContainsSub k "bundesliga" then 3.1
  else if strContainsSub k "serie a" then 2.5
  else if strContainsSub k "ligue 1" then 2.75
  else if strContainsSub k "eredivisie" then 3.0
  else if strContainsSub k "primeira" then 2.5
  else if strContainsSub k "champions league" then 3.0
  else if strContainsSub k "europa league" then 2.8
  else if strContainsSub k "conference league" then 2.7
  else 2.65

example : seedOf "" = JSVal.num 1500 := by decide
example : seedOf "Manchester City" = JSVal.num 1880 := by decide
example : seedOf "Paris Saint-Germain FC" = JSVal.num 1850 := by decide
example : seedOf "Alpha" = JSVal.num 1500 := by decide
example : seedOf "Constructor" = JSVal.protoFun := by decide
example : seedOf "__proto__" = JSVal.num 1500 := by decide
example : leagueBaseGpm "" = 2.65 := rfl
example : leagueBaseGpm "English Premier League" = 2.9 := rfl
example : leagueBaseGpm "Trendyol Süper Lig" = 2.7 := rfl

open scoped Classical

/-- Default `SHARPEN_TAU_1X2` (exponent for 1X2 sharpening). -/
def SHARPEN_TAU_1X2 : ℝ := 1.25

/-- Default `STRONG_DIFF_TILT` (rating gap triggering the big-favorite tilt). -/
def STRONG_DIFF_TILT : ℚ := 220

/-- Default `EDGE_MIN` (threshold below which the top pick is flagged). -/
def EDGE_MIN : ℝ := 0.08

/-- `fac` from `server.js`: `r=1; for(i=2;i<=n;i++) r*=i` — the product
`2·3···n`, i.e. the factorial. -/
def fac : ℕ → ℕ
  | 0 => 1
  | n + 1 => fac n * (n + 1)

lemma fac_pos (n : ℕ) : 0 < fac n := by
  induction n with
  | zero => exact Nat.one_pos
  | succ n ih => exact Nat.mul_pos ih n.succ_pos

/-- `poisPmf` from `server.js`: `Math.exp(-l)*Math.pow(l,k)/fac(k)`. -/
noncomputable def poisPmf (l : ℝ) (k : ℕ) : ℝ := Real.exp (-l) * l ^ k / (fac k : ℝ)

/-- The home-win bucket accumulated by the double loop of `probs1X2`
(`i>j` cells). -/
noncomputable def pHraw (lh la : ℝ) (cap : ℕ) : ℝ :=
  ∑ i in Finset.range (cap + 1), ∑ j in Finset.range (cap + 1),
    if j < i then poisPmf lh i * poisPmf la j else 0

/-- The draw bucket of `probs1X2` (`i===j` cells). -/
noncomputable def pDraw (lh la : ℝ) (cap : ℕ) : ℝ :=
  ∑ i in Finset.range (cap + 1), ∑ j in Finset.range (cap + 1),
    if i = j then poisPmf lh i * poisPmf la j else 0

/-- The away-win bucket of `probs1X2` (`i<j` cells). -/
noncomputable def pAraw (lh la : ℝ) (cap : ℕ) : ℝ :=
  ∑ i in Finset.range (cap + 1), ∑ j in Finset.range (cap + 1),
    if i < j then poisPmf lh i * poisPmf la j else 0

/-- `pH+pD+pA` before normalization. -/
noncomputable def probsSum (lh la : ℝ) (cap : ℕ) : ℝ :=
  pHraw lh la cap + pDraw lh la cap + pAraw lh la cap

/-- The normalizer `s = pH+pD+pA || 1` of `probs1X2`. -/
noncomputable def probsDenom (lh la : ℝ) (cap : ℕ) : ℝ :=
  if probsSum lh la cap = 0 then 1 else probsSum lh la cap

/-- The record `{pH,pD,pA}` returned by `probs1X2`/`sharpen3`. -/
structure Probs3 where
  pH : ℝ
  pD : ℝ
  pA : ℝ

/-- `probs1X2` from `server.js`: truncated double Poisson sum, bucketed
and renormalized. -/
noncomputable def probs1X2 (lh la : ℝ) (cap : ℕ) : Probs3 :=
  ⟨pHraw lh la cap / probsDenom lh la cap,
   pDraw lh la cap / probsDenom lh la cap,
   pAraw lh la cap / probsDenom lh la cap⟩

/-- The normalizer `Z = (a+b+c) || 1` of `sharpen3`. -/
noncomputable def sharpenDenom (pH pD pA tau : ℝ) : ℝ :=
  if pH ^ tau + pD ^ tau + pA ^ tau = 0 then 1 else pH ^ tau + pD ^ tau + pA ^ tau

/-- `sharpen3` from `server.js`: raise each probability to `tau` and
renormalize (guarded by `|| 1`). -/
noncomputable def sharpen3 (pH pD pA tau : ℝ) : Probs3 :=
  ⟨pH ^ tau / sharpenDenom pH pD pA tau,
   pD ^ tau / sharpenDenom pH pD pA tau,
   pA ^ tau / sharpenDenom pH pD pA tau⟩

/-- `expectedGoalsAdvanced` from `server.js`.  The strengths `rh`, `ra`
are JS property reads; when both are numbers the body computes the
published arithmetic and the clamped pair is returned (`some`).  When
either read produced the inherited constructor function, `(rh + 65) - ra`
is JavaScript `NaN`, every later step (`tanh`, `*`, `Math.min`,
`Math.max`) propagates it, and the function returns the pair
`{NaN, NaN}` — modelled here as `none`. -/
noncomputable def expectedGoalsAdvanced (homeName awayName league : String) :
    Option (ℝ × ℝ) :=
  match (seedOf homeName).toNum, (seedOf awayName).toNum with
  | some rhq, some raq =>
    let base : ℝ := (leagueBaseGpm league : ℚ)
    let rh : ℝ := (rhq : ℚ)
    let ra : ℝ := (raq : ℚ)
    let diff : ℝ := (rh + 65) - ra
    let split : ℝ := max 0.36 (min 0.64 (0.5 + 0.12 * Real.tanh (diff / 650)))
    let lh : ℝ := base * split * (1 + diff / 2200)
    let la : ℝ := base * (1 - split) * (1 - diff / 2200)
    let lh2 : ℝ := if rhq - raq ≥ STRONG_DIFF_TILT then lh * 1.10 else lh
    let la2 : ℝ := if rhq - raq ≥ STRONG_DIFF_TILT then la * 0.90 else la
    some (max 0.15 (min 3.2 lh2), max 0.15 (min 3.2 la2))
  | _, _ => none

/-- A candidate market prediction (`{market,label,prob,edge,base}`, with
the optional `note` attached by the selector). -/
structure Cand where
  market : String
  label : String
  prob : ℝ
  edge : ℝ
  base : ℝ
  note : Option String

/-- Stable three-element sort by `key`, descending — the behaviour of the
JS stable `Array.prototype.sort` with comparator `(a,b)=>key b - key a`
on a three-element array. -/
noncomputable def sorted3 {α : Type} (key : α → ℝ) (a b c : α) : α × α × α :=
  if key a < key b then
    if key b < key c then (c, b, a)
    else if key a < key c then (b, c, a)
    else (b, a, c)
  else
    if key a < key c then (c, a, b)
    else if key b < key c then (a, c, b)
    else (a, b, c)

/-- The sorted `[{label:'1',p:pH},{label:'X',p:pD},{label:'2',p:pA}]` pick
(`best1`) inside `choiceFrom`, after sharpening with `tau`. -/
noncomputable def best1X2 (tau lh la : ℝ) : String × ℝ :=
  let P := probs1X2 lh la 12
  let S := sharpen3 P.pH P.pD P.pA tau
  (sorted3 Prod.snd ("1", S.pH) ("X", S.pD) ("2", S.pA)).1

/-- The 1X2 candidate built by `choiceFrom` (edge over the 1/3 baseline). -/
noncomputable def cand1X2 (tau lh la : ℝ) : Cand :=
  ⟨"1X2", (best1X2 tau lh la).1, (best1X2 tau lh la).2,
   (best1X2 tau lh la).2 - 1 / 3, 0.33, none⟩

/-- The inner IIFE of `choiceFrom`: `Σ_{i=0}^{2} poisPmf(l,i)` (pU25). -/
noncomputable def pU25of (l : ℝ) : ℝ := ∑ i in Finset.range 3, poisPmf l i

/-- The Over/Under 2.5 candidate built by `choiceFrom` (`bestTot` with
`edgeTot`), computed from the summed rate `lh+la`. -/
noncomputable def candTot (lh la : ℝ) : Cand :=
  if pU25of (lh + la) ≤ 1 - pU25of (lh + la) then
    ⟨"Over/Under 2.5", "Over 2.5", 1 - pU25of (lh + la),
     (1 - pU25of (lh + la)) - 0.5, 0.50, none⟩
  else
    ⟨"Over/Under 2.5", "Under 2.5", pU25of (lh + la),
     pU25of (lh + la) - 0.5, 0.50, none⟩

/-- `pBTTS` inside `choiceFrom`:
`1 - (exp(-lh) + exp(-la) - exp(-(lh+la)))`. -/
noncomputable def pBTTSof (lh la : ℝ) : ℝ :=
  1 - (Real.exp (-lh) + Real.exp (-la) - Real.exp (-(lh + la)))

/-- The BTTS candidate built by `choiceFrom` (`bestBTTS` with `edgeBTTS`). -/
noncomputable def candBTTS (lh la : ℝ) : Cand :=
  if 0.5 ≤ pBTTSof lh la then
    ⟨"BTTS", "Yes", pBTTSof lh la, pBTTSof lh la - 0.5, 0.50, none⟩
  else
    ⟨"BTTS", "No", 1 - pBTTSof lh la, (1 - pBTTSof lh la) - 0.5, 0.50, none⟩

/-- The selector's result `{top, second}`. -/
structure Choice where
  top : Cand
  second : Cand

/-- `choiceFrom` from `server.js`, with the sharpening exponent
as an explicit parameter: build the three candidates, sort by edge
descending (stable), flag the top pick when its edge is below
`EDGE_MIN`. -/
noncomputable def choiceFromTau (tau lh la : ℝ) : Choice :=
  let s := sorted3 Cand.edge (cand1X2 tau lh la) (candTot lh la) (candBTTS lh la)
  ⟨if s.1.edge < EDGE_MIN then { s.1 with note := some "low-edge-fallback" } else s.1,
   s.2.1⟩

/-- `choiceFrom` with the default configuration (`tau = 1.25`). -/
noncomputable def choiceFrom (lh la : ℝ) : Choice :=
  choiceFromTau SHARPEN_TAU_1X2 lh la

/-- `clamp` as used by the spec's algorithm description. -/
noncomputable def clamp (x lo hi : ℝ) : ℝ := max lo (min hi x)

/-- The spec's §4.1 `resolveStrength` algorithm, written from the spec's
words, for comparison with `seedOf`: a total function into the numeric
ratings, with default 1500 when both table lookups miss. -/
def resolveStrengthSpec (name : String) : ℚ :=
  let n := normTeam name
  let key :=
    match ALIAS.lookup n with
    | some k => k
    | none => n
  match SEED_ELO.lookup key with
  | some r => r
  | none =>
    match SEED_ELO.lookup n with
    | some r => r
    | none => 1500

/-- The spec's §4.3 `estimateGoals` algorithm, written from the spec's
words (steps 1–7), for comparison with `expectedGoalsAdvanced`.  Per the
spec it is a total function returning a clamped pair, built on the
spec's total strength resolver. -/
noncomputable def estimateGoalsSpec (home away league : String) : ℝ × ℝ :=
  let base : ℝ := (leagueBaseGpm league : ℚ)
  let rh : ℚ := resolveStrengthSpec home
  let ra : ℚ := resolveStrengthSpec away
  let diff : ℝ := ((rh : ℝ) + 65) - (ra : ℝ)
  let split : ℝ := clamp (0.5 + 0.12 * Real.tanh (diff / 650)) 0.36 0.64
  let lambdaHome : ℝ := base * split * (1 + diff / 2200)
  let lambdaAway : ℝ := base * (1 - split) * (1 - diff / 2200)
  let tilted : ℝ × ℝ :=
    if rh - ra ≥ STRONG_DIFF_TILT then (lambdaHome * 1.10, lambdaAway * 0.90)
    else (lambdaHome, lambdaAway)
  (clamp tilted.1 0.15 3.2, clamp tilted.2 0.15 3.2)

/-- The ordered pattern list of the league baseline resolver, in the
code's order. -/
def LEAGUE_PATTERNS : List (String × ℚ) :=
  [("super lig", 2.7), ("süper lig", 2.7), ("premier", 2.9), ("la liga", 2.6),
   ("bundesliga", 3.1), ("serie a", 2.5), ("ligue 1", 2.75), ("eredivisie", 3.0),
   ("primeira", 2.5), ("champions league", 3.0), ("europa league", 2.8),
   ("conference league", 2.7)]

/-- The spec's §4.2 `resolveBaseline` algorithm, written from the spec's
words: first pattern of the ordered list occurring as a substring of the
lower-cased label wins; default `2.65`. -/
def resolveBaselineSpec (league : String) : ℚ :=
  match LEAGUE_PATTERNS.find? (fun p => strContainsSub (lowerStr league) p.1) with
  | some p => p.2
  | none => 2.65

lemma clamp_bounds (x : ℝ) : 0.15 ≤ max 0.15 (min 3.2 x) ∧ max 0.15 (min 3.2 x) ≤ 3.2 :=
  ⟨le_max_left _ _, max_le (by norm_num) (min_le_left _ _)⟩

lemma resolveStrengthSpec_of_num (name : String) (q : ℚ)
    (h : seedOf name = JSVal.num q) : resolveStrengthSpec name = q := by
  unfold seedOf objGetSeed canonicalKey at h
  unfold resolveStrengthSpec
  dsimp only at h ⊢
  cases hA : ALIAS.lookup (normTeam name) with
  | none =>
    rw [hA] at h
    simp only [Option.getD_some, Option.getD_none] at h
    cases hS : SEED_ELO.lookup (normTeam name) with
    | some r =>
      rw [hS] at h
      simp only [Option.getD_some] at h
      cases h
      simp [hA, hS]
    | none =>
      rw [hS] at h
      by_cases hC : normTeam name = "constructor"
      · rw [if_pos hC] at h
        simp at h
      · rw [if_neg hC] at h
        simp only [Option.getD_none, Option.getD_some] at h
        cases h
        simp [hA, hS]
  | some k =>
    rw [hA] at h
    simp only [Option.getD_some] at h
    cases hS : SEED_ELO.lookup k with
    | some r =>
      rw [hS] at h
      simp only [Option.getD_some] at h
      cases h
      simp [hA, hS]
    | none =>
      rw [hS] at h
      by_cases hC : k = "constructor"
      · rw [if_pos hC] at h
        simp at h
      · rw [if_neg hC] at h
        simp only [Option.getD_none] at h
        cases hS2 : SEED_ELO.lookup (normTeam name) with
        | some r =>
          rw [hS2] at h
          simp only [Option.getD_some] at h
          cases h
          simp [hA, hS, hS2]
        | none =>
          rw [hS2] at h
          by_cases hC2 : normTeam name = "constructor"
          · rw [if_pos hC2] at h
            simp at h
          · rw [if_neg hC2] at h
            simp only [Option.getD_none, Option.getD_some] at h
            cases h
            simp [hA, hS, hS2]

/-- On every input whose two strength reads are numeric — every input
that does not hit the prototype chain — the estimator returns `some` of
exactly the spec's §4.3 pair, and that pair is clamped into
`[0.15, 3.2]`. -/
lemma expectedGoals_num_matches_spec (home away league : String) (rh ra : ℚ)
    (hh : seedOf home = JSVal.num rh) (ha : seedOf away = JSVal.num ra) :
    expectedGoalsAdvanced home away league =
      some (estimateGoalsSpec home away league) ∧
    0.15 ≤ (estimateGoalsSpec home away league).1 ∧
    (estimateGoalsSpec home away league).1 ≤ 3.2 ∧
    0.15 ≤ (estimateGoalsSpec home away league).2 ∧
    (estimateGoalsSpec home away league).2 ≤ 3.2 := by
  have hsh := resolveStrengthSpec_of_num home rh hh
  have hsa := resolveStrengthSpec_of_num away ra ha
  refine ⟨?_, ?_, ?_, ?_, ?_⟩
  · unfold expectedGoalsAdvanced estimateGoalsSpec clamp
    rw [hh, ha, hsh, hsa]
    simp only [JSVal.toNum]
    split_ifs <;> rfl
  · unfold estimateGoalsSpec clamp
    dsimp only
    exact (clamp_bounds _).1
  · unfold estimateGoalsSpec clamp
    dsimp only
    exact (clamp_bounds _).2
  · unfold estimateGoalsSpec clamp
    dsimp only
    exact (clamp_bounds _).1
  · unfold estimateGoalsSpec clamp
    dsimp only
    exact (clamp_bounds _).2

/-- C1 (code bug): the claim — and the spec's §4.3 contract — promise the
clamped spec pair for all inputs, but for the home name `"Constructor"`
(normalizing to the key `constructor`, which resolves through
`Object.prototype` to the inherited constructor function) the program's
arithmetic is `NaN` throughout and it returns the pair `{NaN, NaN}`
(modelled `none`), which is neither the spec algorithm's pair nor within
`[0.15, 3.2]`; on a prototype-free input the estimator does return the
spec's pair. -/
theorem claim1_constructor_escapes_clamp :
    seedOf "Constructor" = JSVal.protoFun ∧
    expectedGoalsAdvanced "Constructor" "Liverpool" "Premier League" = none ∧
    0.15 ≤ (estimateGoalsSpec "Constructor" "Liverpool" "Premier League").1 ∧
    (estimateGoalsSpec "Constructor" "Liverpool" "Premier League").1 ≤ 3.2 ∧
    expectedGoalsAdvanced "Alpha" "Beta" "Premier League" =
      some (estimateGoalsSpec "Alpha" "Beta" "Premier League") := by
  refine ⟨by decide, rfl, ?_, ?_, ?_⟩
  · exact (clamp_bounds _).1
  · exact (clamp_bounds _).2
  · exact (expectedGoals_num_matches_spec "Alpha" "Beta" "Premier League" 1500 1500
      (by decide) (by decide)).1

/-- C7 (code bug): the claim — and the spec's §4.1 contract — say the
resolver is total over all strings with default 1500 when both lookups
miss, but any name normalizing to the key `constructor` resolves through
the `Object.prototype` chain to the inherited constructor function
(non-nullish, so `??` does not fall through), not to 1500; the spec's
algorithm yields 1500 there, and the empty string still resolves to
1500 in both. -/
theorem claim7_constructor_prototype_bug :
    seedOf "Constructor" = JSVal.protoFun ∧
    seedOf "Constructor" ≠ JSVal.num 1500 ∧
    resolveStrengthSpec "Constructor" = 1500 ∧
    seedOf "" = JSVal.num 1500 ∧ resolveStrengthSpec "" = 1500 := by
  refine ⟨by decide, by decide, by decide, by decide, by decide⟩

/-- C8: `leagueBaseGpm` computes exactly the spec's §4.2 first-match-wins
lookup over the code's ordered pattern list (starting `super lig`/`süper
lig` → 2.7, `premier` → 2.9, `la liga` → 2.6, `bundesliga` → 3.1, `serie a`
→ 2.5, `ligue 1` → 2.75, `eredivisie` → 3.0, `primeira` → 2.5, then the
European-cup patterns), with default 2.65 when no pattern matches; the
empty label yields 2.65. -/
theorem claim8_league_resolver_matches_spec (league : String) :
    leagueBaseGpm league = resolveBaselineSpec league ∧ leagueBaseGpm "" = 2.65 := by
  refine ⟨?_, rfl⟩
  unfold leagueBaseGpm resolveBaselineSpec LEAGUE_PATTERNS
  cases h1 : strContainsSub (lowerStr league) "super lig" with
  | true => simp [List.find?, h1]
  | false =>
  cases h2 : strContainsSub (lowerStr league) "süper lig" with
  | true => simp [List.find?, h1, h2]
  | false =>
  cases h3 : strContainsSub (lowerStr league) "premier" with
  | true => simp [List.find?, h1, h2, h3]
  | false =>
  cases h4 : strContainsSub (lowerStr league) "la liga" with
  | true => simp [List.find?, h1, h2, h3, h4]
  | false =>
  cases h5 : strContainsSub (lowerStr league) "bundesliga" with
  | true => simp [List.find?, h1, h2, h3, h4, h5]
  | false =>
  cases h6 : strContainsSub (lowerStr league) "serie a" with
  | true => simp [List.find?, h1, h2, h3, h4, h5, h6]
  | false =>
  cases h7 : strContainsSub (lowerStr league) "ligue 1" with
  | true => simp [List.find?, h1, h2, h3, h4, h5, h6, h7]
  | false =>
  cases h8 : strContainsSub (lowerStr league) "eredivisie" with
  | true => simp [List.find?, h1, h2, h3, h4, h5, h6, h7, h8]
  | false =>
  cases h9 : strContainsSub (lowerStr league) "primeira" with
  | true => simp [List.find?, h1, h2, h3, h4, h5, h6, h7, h8, h9]
  | false =>
  cases h10 : strContainsSub (lowerStr league) "champions league" with
  | true => simp [List.find?, h1, h2, h3, h4, h5, h6, h7, h8, h9, h10]
  | false =>
  cases h11 : strContainsSub (lowerStr league) "europa league" with
  | true => simp [List.find?, h1, h2, h3, h4, h5, h6, h7, h8, h9, h10, h11]
  | false =>
  cases h12 : strContainsSub (lowerStr league) "conference league" with
  | true => simp [List.find?, h1, h2, h3, h4, h5, h6, h7, h8, h9, h10, h11, h12]
  | false => simp [List.find?, h1, h2, h3, h4, h5, h6, h7, h8, h9, h10, h11, h12]

lemma sorted3_cases {α : Type} (key : α → ℝ) (a b c : α) :
    sorted3 key a b c = (c, b, a) ∨ sorted3 key a b c = (b, c, a) ∨
    sorted3 key a b c = (b, a, c) ∨ sorted3 key a b c = (c, a, b) ∨
    sorted3 key a b c = (a, c, b) ∨ sorted3 key a b c = (a, b, c) := by
  unfold sorted3
  split_ifs <;> simp

lemma sorted3_desc {α : Type} (key : α → ℝ) (a b c : α) :
    key (sorted3 key a b c).2.1 ≤ key (sorted3 key a b c).1 ∧
    key (sorted3 key a b c).2.2 ≤ key (sorted3 key a b c).2.1 := by
  unfold sorted3
  split_ifs <;> constructor <;> dsimp only <;> linarith

lemma sorted3_fst_mem {α : Type} (key : α → ℝ) (a b c : α) :
    (sorted3 key a b c).1 = a ∨ (sorted3 key a b c).1 = b ∨ (sorted3 key a b c).1 = c := by
  unfold sorted3
  split_ifs <;> simp

lemma sorted3_snd_mem {α : Type} (key : α → ℝ) (a b c : α) :
    (sorted3 key a b c).2.1 = a ∨ (sorted3 key a b c).2.1 = b ∨ (sorted3 key a b c).2.1 = c := by
  unfold sorted3
  split_ifs <;> simp

lemma cand1X2_market (tau lh la : ℝ) : (cand1X2 tau lh la).market = "1X2" := rfl

lemma cand1X2_note (tau lh la : ℝ) : (cand1X2 tau lh la).note = none := rfl

lemma candTot_market (lh la : ℝ) : (candTot lh la).market = "Over/Under 2.5" := by
  unfold candTot
  split_ifs <;> rfl

lemma candTot_note (lh la : ℝ) : (candTot lh la).note = none := by
  unfold candTot
  split_ifs <;> rfl

lemma candTot_label (lh la : ℝ) :
    (candTot lh la).label = "Over 2.5" ∨ (candTot lh la).label = "Under 2.5" := by
  unfold candTot
  split_ifs
  · exact Or.inl rfl
  · exact Or.inr rfl

lemma candBTTS_market (lh la : ℝ) : (candBTTS lh la).market = "BTTS" := by
  unfold candBTTS
  split_ifs <;> rfl

lemma candBTTS_note (lh la : ℝ) : (candBTTS lh la).note = none := by
  unfold candBTTS
  split_ifs <;> rfl

lemma candBTTS_label (lh la : ℝ) :
    (candBTTS lh la).label = "Yes" ∨ (candBTTS lh la).label = "No" := by
  unfold candBTTS
  split_ifs
  · exact Or.inl rfl
  · exact Or.inr rfl

lemma cand1X2_label (tau lh la : ℝ) :
    (cand1X2 tau lh la).label = "1" ∨ (cand1X2 tau lh la).label = "X" ∨
    (cand1X2 tau lh la).label = "2" := by
  unfold cand1X2 best1X2
  dsimp only
  rcases sorted3_fst_mem (Prod.snd : String × ℝ → ℝ)
      ("1", (sharpen3 (probs1X2 lh la 12).pH (probs1X2 lh la 12).pD (probs1X2 lh la 12).pA tau).pH)
      ("X", (sharpen3 (probs1X2 lh la 12).pH (probs1X2 lh la 12).pD (probs1X2 lh la 12).pA tau).pD)
      ("2", (sharpen3 (probs1X2 lh la 12).pH (probs1X2 lh la 12).pD (probs1X2 lh la 12).pA tau).pA)
    with h | h | h <;> rw [h]
  · exact Or.inl rfl
  · exact Or.inr (Or.inl rfl)
  · exact Or.inr (Or.inr rfl)

/-- C4: the market selector is total — it always yields both a top and a
second prediction drawn from the three candidates sorted by edge
descending — and the top prediction carries the note
`"low-edge-fallback"` exactly when its edge is below `EDGE_MIN = 0.08`;
the second prediction is never noted. -/
theorem claim4_selector_total_and_note_iff (lh la : ℝ) :
    ((choiceFrom lh la).top.note = some "low-edge-fallback" ↔
      (choiceFrom lh la).top.edge < EDGE_MIN) ∧
    (choiceFrom lh la).second.note = none ∧
    (choiceFrom lh la).second.edge ≤ (choiceFrom lh la).top.edge := by
  unfold choiceFrom choiceFromTau
  dsimp only
  set c1 := cand1X2 SHARPEN_TAU_1X2 lh la with hc1
  set c2 := candTot lh la with hc2
  set c3 := candBTTS lh la with hc3
  have hfst := sorted3_fst_mem Cand.edge c1 c2 c3
  have hsnd := sorted3_snd_mem Cand.edge c1 c2 c3
  have hdesc := sorted3_desc Cand.edge c1 c2 c3
  have hfstnote : (sorted3 Cand.edge c1 c2 c3).1.note = none := by
    rcases hfst with h | h | h <;> rw [h]
    · exact cand1X2_note _ _ _
    · exact candTot_note _ _
    · exact candBTTS_note _ _
  have hsndnote : (sorted3 Cand.edge c1 c2 c3).2.1.note = none := by
    rcases hsnd with h | h | h <;> rw [h]
    · exact cand1X2_note _ _ _
    · exact candTot_note _ _
    · exact candBTTS_note _ _
  by_cases h : (sorted3 Cand.edge c1 c2 c3).1.edge < EDGE_MIN
  · rw [if_pos h]
    exact ⟨iff_of_true rfl h, hsndnote, hdesc.1⟩
  · rw [if_neg h]
    refine ⟨?_, hsndnote, hdesc.1⟩
    rw [hfstnote]
    exact iff_of_false (by simp) h

/-- The fixed market/label vocabulary of `MarketPrediction`. -/
def marketVocab : Set (String × String) :=
  {("1X2", "1"), ("1X2", "X"), ("1X2", "2"),
   ("Over/Under 2.5", "Over 2.5"), ("Over/Under 2.5", "Under 2.5"),
   ("BTTS", "Yes"), ("BTTS", "No")}

/-- C9: both returned predictions are well-formed — their market is one of
`1X2`, `Over/Under 2.5`, `BTTS`, their label is drawn from the matching
fixed vocabulary — and the top and second predictions are for two distinct
markets. -/
theorem claim9_market_label_vocab (lh la : ℝ) :
    ((choiceFrom lh la).top.market, (choiceFrom lh la).top.label) ∈ marketVocab ∧
    ((choiceFrom lh la).second.market, (choiceFrom lh la).second.label) ∈ marketVocab ∧
    (choiceFrom lh la).top.market ≠ (choiceFrom lh la).second.market := by
  unfold choiceFrom choiceFromTau
  dsimp only
  set c1 := cand1X2 SHARPEN_TAU_1X2 lh la with hc1
  set c2 := candTot lh la with hc2
  set c3 := candBTTS lh la with hc3
  have hvoc : ∀ c : Cand, c = c1 ∨ c = c2 ∨ c = c3 → (c.market, c.label) ∈ marketVocab := by
    intro c hc
    rcases hc with h | h | h <;> subst h
    · rw [hc1, cand1X2_market]
      rcases cand1X2_label SHARPEN_TAU_1X2 lh la with h | h | h <;> rw [h] <;>
        simp [marketVocab]
    · rw [hc2, candTot_market]
      rcases candTot_label lh la with h | h <;> rw [h] <;> simp [marketVocab]
    · rw [hc3, candBTTS_market]
      rcases candBTTS_label lh la with h | h <;> rw [h] <;> simp [marketVocab]
  have hm1 : c1.market = "1X2" := by rw [hc1]; exact cand1X2_market _ _ _
  have hm2 : c2.market = "Over/Under 2.5" := by rw [hc2]; exact candTot_market _ _
  have hm3 : c3.market = "BTTS" := by rw [hc3]; exact candBTTS_market _ _
  have htopm :
      (if (sorted3 Cand.edge c1 c2 c3).1.edge < EDGE_MIN then
          { (sorted3 Cand.edge c1 c2 c3).1 with note := some "low-edge-fallback" }
        else (sorted3 Cand.edge c1 c2 c3).1).market =
      (sorted3 Cand.edge c1 c2 c3).1.market := by
    split_ifs <;> rfl
  have htopl :
      (if (sorted3 Cand.edge c1 c2 c3).1.edge < EDGE_MIN then
          { (sorted3 Cand.edge c1 c2 c3).1 with note := some "low-edge-fallback" }
        else (sorted3 Cand.edge c1 c2 c3).1).label =
      (sorted3 Cand.edge c1 c2 c3).1.label := by
    split_ifs <;> rfl
  refine ⟨?_, hvoc _ (sorted3_snd_mem Cand.edge c1 c2 c3), ?_⟩
  · rw [htopm, htopl]
    exact hvoc _ (sorted3_fst_mem Cand.edge c1 c2 c3)
  · rw [htopm]
    rcases sorted3_cases Cand.edge c1 c2 c3 with h | h | h | h | h | h <;> rw [h] <;>
      simp [hm1, hm2, hm3]

lemma poisPmf_nonneg (l : ℝ) (k : ℕ) (hl : 0 ≤ l) : 0 ≤ poisPmf l k :=
  div_nonneg (mul_nonneg (Real.exp_pos _).le (pow_nonneg hl k)) (Nat.cast_nonneg _)

lemma poisPmf_pos (l : ℝ) (k : ℕ) (hl : 0 < l) : 0 < poisPmf l k :=
  div_pos (mul_pos (Real.exp_pos _) (pow_pos hl k))
    (by exact_mod_cast fac_pos k)

lemma poisPmf_zero_pos (l : ℝ) : 0 < poisPmf l 0 := by
  unfold poisPmf fac
  simp [Real.exp_pos]

lemma pHraw_nonneg (lh la : ℝ) (hl : 0 ≤ lh) (hla : 0 ≤ la) (cap : ℕ) :
    0 ≤ pHraw lh la cap := by
  refine Finset.sum_nonneg fun i _ => Finset.sum_nonneg fun j _ => ?_
  split_ifs
  · exact mul_nonneg (poisPmf_nonneg _ _ hl) (poisPmf_nonneg _ _ hla)
  · exact le_rfl

lemma pDraw_nonneg (lh la : ℝ) (hl : 0 ≤ lh) (hla : 0 ≤ la) (cap : ℕ) :
    0 ≤ pDraw lh la cap := by
  refine Finset.sum_nonneg fun i _ => Finset.sum_nonneg fun j _ => ?_
  split_ifs
  · exact mul_nonneg (poisPmf_nonneg _ _ hl) (poisPmf_nonneg _ _ hla)
  · exact le_rfl

lemma pAraw_nonneg (lh la : ℝ) (hl : 0 ≤ lh) (hla : 0 ≤ la) (cap : ℕ) :
    0 ≤ pAraw lh la cap := by
  refine Finset.sum_nonneg fun i _ => Finset.sum_nonneg fun j _ => ?_
  split_ifs
  · exact mul_nonneg (poisPmf_nonneg _ _ hl) (poisPmf_nonneg _ _ hla)
  · exact le_rfl

lemma pDraw_pos (lh la : ℝ) (hl : 0 ≤ lh) (hla : 0 ≤ la) :
    0 < pDraw lh la 12 := by
  unfold pDraw
  refine Finset.sum_pos'
    (fun i _ => Finset.sum_nonneg fun j _ => ?_)
    ⟨0, Finset.mem_range.2 (by norm_num), ?_⟩
  · split_ifs
    · exact mul_nonneg (poisPmf_nonneg _ _ hl) (poisPmf_nonneg _ _ hla)
    · exact le_rfl
  · refine Finset.sum_pos'
      (fun j _ => ?_) ⟨0, Finset.mem_range.2 (by norm_num), ?_⟩
    · split_ifs
      · exact mul_nonneg (poisPmf_nonneg _ _ hl) (poisPmf_nonneg _ _ hla)
      · exact le_rfl
    · rw [if_pos rfl]
      exact mul_pos (poisPmf_zero_pos _) (poisPmf_zero_pos _)

lemma pHraw_pos (lh la : ℝ) (hl : 0 < lh) (hla : 0 < la) :
    0 < pHraw lh la 12 := by
  unfold pHraw
  refine Finset.sum_pos'
    (fun i _ => Finset.sum_nonneg fun j _ => ?_)
    ⟨1, Finset.mem_range.2 (by norm_num), ?_⟩
  · split_ifs
    · exact mul_nonneg (poisPmf_nonneg _ _ hl.le) (poisPmf_nonneg _ _ hla.le)
    · exact le_rfl
  · refine Finset.sum_pos'
      (fun j _ => ?_) ⟨0, Finset.mem_range.2 (by norm_num), ?_⟩
    · split_ifs
      · exact mul_nonneg (poisPmf_nonneg _ _ hl.le) (poisPmf_nonneg _ _ hla.le)
      · exact le_rfl
    · rw [if_pos (by norm_num : (0:ℕ) < 1)]
      exact mul_pos (poisPmf_pos _ _ hl) (poisPmf_pos _ _ hla)

lemma pAraw_pos (lh la : ℝ) (hl : 0 < lh) (hla : 0 < la) :
    0 < pAraw lh la 12 := by
  unfold pAraw
  refine Finset.sum_pos'
    (fun i _ => Finset.sum_nonneg fun j _ => ?_)
    ⟨0, Finset.mem_range.2 (by norm_num), ?_⟩
  · split_ifs
    · exact mul_nonneg (poisPmf_nonneg _ _ hl.le) (poisPmf_nonneg _ _ hla.le)
    · exact le_rfl
  · refine Finset.sum_pos'
      (fun j _ => ?_) ⟨1, Finset.mem_range.2 (by norm_num), ?_⟩
    · split_ifs
      · exact mul_nonneg (poisPmf_nonneg _ _ hl.le) (poisPmf_nonneg _ _ hla.le)
      · exact le_rfl
    · rw [if_pos (by norm_num : (0:ℕ) < 1)]
      exact mul_pos (poisPmf_pos _ _ hl) (poisPmf_pos _ _ hla)

lemma probsSum_pos (lh la : ℝ) (hl : 0 ≤ lh) (hla : 0 ≤ la) :
    0 < probsSum lh la 12 := by
  unfold probsSum
  have h1 := pHraw_nonneg lh la hl hla 12
  have h2 := pDraw_pos lh la hl hla
  have h3 := pAraw_nonneg lh la hl hla 12
  linarith

lemma probsDenom_eq (lh la : ℝ) (hl : 0 ≤ lh) (hla : 0 ≤ la) :
    probsDenom lh la 12 = probsSum lh la 12 := by
  unfold probsDenom
  rw [if_neg (ne_of_gt (probsSum_pos lh la hl hla))]

lemma probsDenom_pos (lh la : ℝ) (hl : 0 ≤ lh) (hla : 0 ≤ la) :
    0 < probsDenom lh la 12 := by
  rw [probsDenom_eq lh la hl hla]
  exact probsSum_pos lh la hl hla

/-- C10: `probs1X2` and `sharpen3` are total for arbitrary non-negative
inputs: the `|| 1` guard makes their normalizing divisor nonzero in every
case, and every returned component is a well-defined value in `[0, 1]`. -/
theorem claim10_normalizers_guarded :
    (∀ lh la : ℝ, 0 ≤ lh → 0 ≤ la →
      probsDenom lh la 12 ≠ 0 ∧
      0 ≤ (probs1X2 lh la 12).pH ∧ (probs1X2 lh la 12).pH ≤ 1 ∧
      0 ≤ (probs1X2 lh la 12).pD ∧ (probs1X2 lh la 12).pD ≤ 1 ∧
      0 ≤ (probs1X2 lh la 12).pA ∧ (probs1X2 lh la 12).pA ≤ 1) ∧
    (∀ p q r tau : ℝ, 0 ≤ p → 0 ≤ q → 0 ≤ r →
      sharpenDenom p q r tau ≠ 0 ∧
      0 ≤ (sharpen3 p q r tau).pH ∧ (sharpen3 p q r tau).pH ≤ 1 ∧
      0 ≤ (sharpen3 p q r tau).pD ∧ (sharpen3 p q r tau).pD ≤ 1 ∧
      0 ≤ (sharpen3 p q r tau).pA ∧ (sharpen3 p q r tau).pA ≤ 1) := by
  constructor
  · intro lh la hl hla
    have hd := probsDenom_pos lh la hl hla
    have hde := probsDenom_eq lh la hl hla
    have h1 := pHraw_nonneg lh la hl hla 12
    have h2 := pDraw_nonneg lh la hl hla 12
    have h3 := pAraw_nonneg lh la hl hla 12
    have hs : probsSum lh la 12 = pHraw lh la 12 + pDraw lh la 12 + pAraw lh la 12 := rfl
    unfold probs1X2
    refine ⟨ne_of_gt hd, div_nonneg h1 hd.le, ?_, div_nonneg h2 hd.le, ?_,
            div_nonneg h3 hd.le, ?_⟩ <;>
      rw [div_le_one hd, hde] <;> rw [hs] <;> linarith
  · intro p q r tau hp hq hr
    have ha := Real.rpow_nonneg hp tau
    have hb := Real.rpow_nonneg hq tau
    have hc := Real.rpow_nonneg hr tau
    unfold sharpen3 sharpenDenom
    by_cases hz : p ^ tau + q ^ tau + r ^ tau = 0
    · rw [if_pos hz]
      have ha0 : p ^ tau = 0 := by linarith
      have hb0 : q ^ tau = 0 := by linarith
      have hc0 : r ^ tau = 0 := by linarith
      rw [ha0, hb0, hc0]
      norm_num
    · rw [if_neg hz]
      have hzpos : 0 < p ^ tau + q ^ tau + r ^ tau :=
        lt_of_le_of_ne (by linarith) (Ne.symm hz)
      refine ⟨ne_of_gt hzpos, div_nonneg ha hzpos.le, ?_, div_nonneg hb hzpos.le, ?_,
              div_nonneg hc hzpos.le, ?_⟩ <;> rw [div_le_one hzpos] <;> linarith

/-- Witness for C10 at the concrete inputs `lh = la = 0` and
`p = q = r = 0`, `tau = 1`. -/
theorem claim10_witness :
    (probsDenom 0 0 12 ≠ 0 ∧
      0 ≤ (probs1X2 0 0 12).pH ∧ (probs1X2 0 0 12).pH ≤ 1 ∧
      0 ≤ (probs1X2 0 0 12).pD ∧ (probs1X2 0 0 12).pD ≤ 1 ∧
      0 ≤ (probs1X2 0 0 12).pA ∧ (probs1X2 0 0 12).pA ≤ 1) ∧
    (sharpenDenom 0 0 0 1 ≠ 0 ∧
      0 ≤ (sharpen3 0 0 0 1).pH ∧ (sharpen3 0 0 0 1).pH ≤ 1 ∧
      0 ≤ (sharpen3 0 0 0 1).pD ∧ (sharpen3 0 0 0 1).pD ≤ 1 ∧
      0 ≤ (sharpen3 0 0 0 1).pA ∧ (sharpen3 0 0 0 1).pA ≤ 1) :=
  ⟨claim10_normalizers_guarded.1 0 0 le_rfl le_rfl,
   claim10_normalizers_guarded.2 0 0 0 1 le_rfl le_rfl le_rfl⟩

lemma probs1X2_sum_eq_one (lh la : ℝ) (hl : 0 < lh) (hla : 0 < la) :
    (probs1X2 lh la 12).pH + (probs1X2 lh la 12).pD + (probs1X2 lh la 12).pA = 1 := by
  unfold probs1X2
  rw [div_add_div_same, div_add_div_same, probsDenom_eq lh la hl.le hla.le]
  exact div_self (ne_of_gt (probsSum_pos lh la hl.le hla.le))

lemma sharpen3_sum_eq_one (p q r tau : ℝ) (hp : 0 < p) (hq : 0 < q) (hr : 0 < r) :
    (sharpen3 p q r tau).pH + (sharpen3 p q r tau).pD + (sharpen3 p q r tau).pA = 1 := by
  have ha := Real.rpow_pos_of_pos hp tau
  have hb := Real.rpow_pos_of_pos hq tau
  have hc := Real.rpow_pos_of_pos hr tau
  have hz : p ^ tau + q ^ tau + r ^ tau ≠ 0 := by positivity
  unfold sharpen3 sharpenDenom
  rw [if_neg hz, div_add_div_same, div_add_div_same]
  exact div_self hz

/-- C2: for all rates in the clamped range `[0.15, 3.2]`, the three 1X2
probabilities produced by the truncated (scores `0..12`) double Poisson
sum and renormalized in `probs1X2` sum to 1, and after `sharpen3` with the
default exponent `tau = 1.25` they still sum to 1 (within `1e-9`). -/
theorem claim2_probabilities_sum_to_one (lh la : ℝ)
    (h1 : 0.15 ≤ lh) (h2 : lh ≤ 3.2) (h3 : 0.15 ≤ la) (h4 : la ≤ 3.2) :
    |(probs1X2 lh la 12).pH + (probs1X2 lh la 12).pD + (probs1X2 lh la 12).pA - 1| ≤ 1e-9 ∧
    |(sharpen3 (probs1X2 lh la 12).pH (probs1X2 lh la 12).pD (probs1X2 lh la 12).pA
        SHARPEN_TAU_1X2).pH +
     (sharpen3 (probs1X2 lh la 12).pH (probs1X2 lh la 12).pD (probs1X2 lh la 12).pA
        SHARPEN_TAU_1X2).pD +
     (sharpen3 (probs1X2 lh la 12).pH (probs1X2 lh la 12).pD (probs1X2 lh la 12).pA
        SHARPEN_TAU_1X2).pA - 1| ≤ 1e-9 := by
  have hl : 0 < lh := lt_of_lt_of_le (by norm_num) h1
  have hla : 0 < la := lt_of_lt_of_le (by norm_num) h3
  have hd := probsDenom_pos lh la hl.le hla.le
  have hpH : 0 < (probs1X2 lh la 12).pH := div_pos (pHraw_pos lh la hl hla) hd
  have hpD : 0 < (probs1X2 lh la 12).pD := div_pos (pDraw_pos lh la hl.le hla.le) hd
  have hpA : 0 < (probs1X2 lh la 12).pA := div_pos (pAraw_pos lh la hl hla) hd
  constructor
  · rw [probs1X2_sum_eq_one lh la hl hla]
    norm_num
  · rw [sharpen3_sum_eq_one _ _ _ _ hpH hpD hpA]
    norm_num

/-- Witness for C2 at the concrete rates `lh = la = 1`. -/
theorem claim2_witness :
    ((0.15:ℝ) ≤ 1 ∧ (1:ℝ) ≤ 3.2) ∧
    |(probs1X2 1 1 12).pH + (probs1X2 1 1 12).pD + (probs1X2 1 1 12).pA - 1| ≤ 1e-9 ∧
    |(sharpen3 (probs1X2 1 1 12).pH (probs1X2 1 1 12).pD (probs1X2 1 1 12).pA
        SHARPEN_TAU_1X2).pH +
     (sharpen3 (probs1X2 1 1 12).pH (probs1X2 1 1 12).pD (probs1X2 1 1 12).pA
        SHARPEN_TAU_1X2).pD +
     (sharpen3 (probs1X2 1 1 12).pH (probs1X2 1 1 12).pD (probs1X2 1 1 12).pA
        SHARPEN_TAU_1X2).pA - 1| ≤ 1e-9 :=
  ⟨⟨by norm_num, by norm_num⟩,
   claim2_probabilities_sum_to_one 1 1 (by norm_num) (by norm_num) (by norm_num) (by norm_num)⟩

/-- The spec's Over/Under 2.5 formula: the Poisson CDF at `k = 2` of the
summed rate, `Σ_{k=0}^{2} e^(-(lh+la)) (lh+la)^k / k!`. -/
noncomputable def specPUnder (lh la : ℝ) : ℝ :=
  ∑ k in Finset.range 3, Real.exp (-(lh + la)) * (lh + la) ^ k / (Nat.factorial k : ℝ)

/-- The spec's `pOver = 1 - pUnder`. -/
noncomputable def specPOver (lh la : ℝ) : ℝ := 1 - specPUnder lh la

/-- The spec's BTTS inclusion–exclusion formula
`1 - (e^{-lh} + e^{-la} - e^{-(lh+la)})`. -/
noncomputable def specPBTTSYes (lh la : ℝ) : ℝ :=
  1 - (Real.exp (-lh) + Real.exp (-la) - Real.exp (-(lh + la)))

/-- C3: the market selector computes the goals markets exactly by the
spec's formulas — `pUnder2.5` is the Poisson CDF at 2 of the summed rate,
`pOver = 1 - pUnder`, BTTS-Yes is the inclusion–exclusion formula — and
the sharpening exponent `tau` is applied only to the 1X2 candidate: the
totals and BTTS candidates are independent of it, while the 1X2
candidate's probability is one of the `sharpen3` outputs. -/
theorem claim3_goals_markets_formulas (lh la tau : ℝ) :
    pU25of (lh + la) = specPUnder lh la ∧
    (candTot lh la).prob = max (specPOver lh la) (specPUnder lh la) ∧
    (candBTTS lh la).prob = max (specPBTTSYes lh la) (1 - specPBTTSYes lh la) ∧
    ((cand1X2 tau lh la).prob =
        (sharpen3 (probs1X2 lh la 12).pH (probs1X2 lh la 12).pD (probs1X2 lh la 12).pA tau).pH ∨
      (cand1X2 tau lh la).prob =
        (sharpen3 (probs1X2 lh la 12).pH (probs1X2 lh la 12).pD (probs1X2 lh la 12).pA tau).pD ∨
      (cand1X2 tau lh la).prob =
        (sharpen3 (probs1X2 lh la 12).pH (probs1X2 lh la 12).pD (probs1X2 lh la 12).pA tau).pA) := by
  have hU : pU25of (lh + la) = specPUnder lh la := by
    unfold pU25of specPUnder poisPmf
    simp [Finset.sum_range_succ, fac, Nat.factorial]
  refine ⟨hU, ?_, ?_, ?_⟩
  · unfold candTot specPOver
    split_ifs with h
    · rw [hU] at h ⊢
      exact (max_eq_left (by linarith)).symm
    · rw [hU] at h ⊢
      exact (max_eq_right (by linarith)).symm
  · have hB : pBTTSof lh la = specPBTTSYes lh la := rfl
    unfold candBTTS
    split_ifs with h
    · rw [hB] at h ⊢
      exact (max_eq_left (by linarith)).symm
    · rw [hB] at h ⊢
      exact (max_eq_right (by linarith)).symm
  · unfold cand1X2 best1X2
    dsimp only
    rcases sorted3_fst_mem (Prod.snd : String × ℝ → ℝ)
        ("1", (sharpen3 (probs1X2 lh la 12).pH (probs1X2 lh la 12).pD (probs1X2 lh la 12).pA tau).pH)
        ("X", (sharpen3 (probs1X2 lh la 12).pH (probs1X2 lh la 12).pD (probs1X2 lh la 12).pA tau).pD)
        ("2", (sharpen3 (probs1X2 lh la 12).pH (probs1X2 lh la 12).pD (probs1X2 lh la 12).pA tau).pA)
      with h | h | h <;> rw [h]
    · exact Or.inl rfl
    · exact Or.inr (Or.inl rfl)
    · exact Or.inr (Or.inr rfl)

lemma tanh_pos_of_pos {x : ℝ} (hx : 0 < x) : 0 < Real.tanh x := by
  rw [Real.tanh_eq_sinh_div_cosh]
  exact div_pos (Real.sinh_pos_iff.2 hx) (Real.cosh_pos x)

set_option maxHeartbeats 2000000 in
lemma leagueBaseGpm_bounds (l : String) :
    (5/2 : ℚ) ≤ leagueBaseGpm l ∧ leagueBaseGpm l ≤ (31/10 : ℚ) := by
  simp only [leagueBaseGpm]
  split_ifs <;> constructor <;> norm_num

lemma poisPmf_cross (lh la : ℝ) (h0 : 0 < la) (h : la < lh) {i j : ℕ} (hji : j < i) :
    poisPmf lh j * poisPmf la i < poisPmf lh i * poisPmf la j := by
  have hlh : 0 < lh := h0.trans h
  have hpow : lh ^ j * la ^ i < lh ^ i * la ^ j := by
    have hd : j + (i - j) = i := Nat.add_sub_cancel' hji.le
    have hbase : 0 < lh ^ j * la ^ j := mul_pos (pow_pos hlh j) (pow_pos h0 j)
    have hstep : la ^ (i - j) < lh ^ (i - j) :=
      pow_lt_pow_left h h0.le (Nat.sub_ne_zero_of_lt hji)
    calc lh ^ j * la ^ i = lh ^ j * la ^ j * la ^ (i - j) := by
          rw [mul_assoc, ← pow_add, hd]
      _ < lh ^ j * la ^ j * lh ^ (i - j) := mul_lt_mul_of_pos_left hstep hbase
      _ = lh ^ i * la ^ j := by
          rw [mul_comm (lh ^ j) (la ^ j), mul_assoc, ← pow_add, hd, mul_comm]
  have hE : 0 < Real.exp (-lh) * Real.exp (-la) :=
    mul_pos (Real.exp_pos _) (Real.exp_pos _)
  have hfac : (0:ℝ) < (fac i : ℝ) * (fac j : ℝ) := by
    have hi := fac_pos i
    have hj := fac_pos j
    positivity
  unfold poisPmf
  rw [div_mul_div_comm, div_mul_div_comm, mul_comm ((fac j : ℝ)) ((fac i : ℝ))]
  rw [div_lt_div_iff hfac hfac]
  have hnum : Real.exp (-lh) * lh ^ j * (Real.exp (-la) * la ^ i) <
      Real.exp (-lh) * lh ^ i * (Real.exp (-la) * la ^ j) := by
    calc Real.exp (-lh) * lh ^ j * (Real.exp (-la) * la ^ i)
        = Real.exp (-lh) * Real.exp (-la) * (lh ^ j * la ^ i) := by ring
      _ < Real.exp (-lh) * Real.exp (-la) * (lh ^ i * la ^ j) :=
          mul_lt_mul_of_pos_left hpow hE
      _ = Real.exp (-lh) * lh ^ i * (Real.exp (-la) * la ^ j) := by ring
  exact mul_lt_mul_of_pos_right hnum hfac

lemma pAraw_lt_pHraw (lh la : ℝ) (h0 : 0 < la) (h : la < lh) :
    pAraw lh la 12 < pHraw lh la 12 := by
  have hlh : 0 < lh := h0.trans h
  unfold pAraw pHraw
  rw [Finset.sum_comm]
  apply Finset.sum_lt_sum
  · intro i _
    apply Finset.sum_le_sum
    intro j _
    split_ifs with hji
    · exact (poisPmf_cross lh la h0 h hji).le
    · exact le_rfl
  · refine ⟨1, Finset.mem_range.2 (by norm_num), ?_⟩
    apply Finset.sum_lt_sum
    · intro j _
      split_ifs with hji
      · exact (poisPmf_cross lh la h0 h hji).le
      · exact le_rfl
    · refine ⟨0, Finset.mem_range.2 (by norm_num), ?_⟩
      rw [if_pos (by norm_num : (0:ℕ) < 1), if_pos (by norm_num : (0:ℕ) < 1)]
      exact poisPmf_cross lh la h0 h (by norm_num)

lemma probs_pA_lt_pH (lh la : ℝ) (h0 : 0 < la) (h : la < lh) :
    (probs1X2 lh la 12).pA < (probs1X2 lh la 12).pH := by
  have hlh : 0 < lh := h0.trans h
  have hd := probsDenom_pos lh la hlh.le h0.le
  unfold probs1X2
  exact (div_lt_div_right hd).2 (pAraw_lt_pHraw lh la h0 h)

lemma sharpen_pA_lt_pH (p q r tau : ℝ) (hp : 0 < p) (hq : 0 < q) (hr : 0 < r)
    (htau : 0 < tau) (h : r < p) :
    (sharpen3 p q r tau).pA < (sharpen3 p q r tau).pH := by
  have ha := Real.rpow_pos_of_pos hp tau
  have hb := Real.rpow_pos_of_pos hq tau
  have hc := Real.rpow_pos_of_pos hr tau
  have hzpos : 0 < p ^ tau + q ^ tau + r ^ tau := by linarith
  unfold sharpen3 sharpenDenom
  rw [if_neg (ne_of_gt hzpos)]
  exact (div_lt_div_right hzpos).2 (Real.rpow_lt_rpow hr.le h htau)

lemma neutral_pair_bounds (b s : ℝ) (hbR1 : 5/2 ≤ b) (hbR2 : b ≤ 31/10)
    (hs1 : (0.36:ℝ) ≤ s) (hs2 : s ≤ 0.64) (hs3 : (0.5:ℝ) < s) :
    0 < max 0.15 (min 3.2 (b * (1 - s) * (1 - 65 / 2200))) ∧
    max 0.15 (min 3.2 (b * (1 - s) * (1 - 65 / 2200))) <
      max 0.15 (min 3.2 (b * s * (1 + 65 / 2200))) := by
  have hb0 : (0:ℝ) < b := by linarith
  have h1s : (0.36:ℝ) ≤ 1 - s := by linarith
  have hla_lb : (0.15:ℝ) ≤ b * (1 - s) * (1 - 65 / 2200) := by nlinarith
  have hla_ub : b * (1 - s) * (1 - 65 / 2200) ≤ 3.2 := by nlinarith
  have hlh_lb : (0.15:ℝ) ≤ b * s * (1 + 65 / 2200) := by nlinarith
  have hlh_ub : b * s * (1 + 65 / 2200) ≤ 3.2 := by nlinarith
  have horder : b * (1 - s) * (1 - 65 / 2200) < b * s * (1 + 65 / 2200) := by nlinarith
  rw [min_eq_right hla_ub, min_eq_right hlh_ub,
      max_eq_right hla_lb, max_eq_right hlh_lb]
  exact ⟨by linarith, horder⟩

lemma equalSeeds_lams (home away league : String) (q : ℚ)
    (hh : seedOf home = JSVal.num q) (ha : seedOf away = JSVal.num q) :
    ∃ p : ℝ × ℝ, expectedGoalsAdvanced home away league = some p ∧
      0 < p.2 ∧ p.2 < p.1 := by
  have hcond : ¬ (q - q ≥ STRONG_DIFF_TILT) := by
    rw [sub_self]
    norm_num [STRONG_DIFF_TILT]
  have hb := leagueBaseGpm_bounds league
  have hbR1 : (5/2 : ℝ) ≤ ((leagueBaseGpm league : ℚ) : ℝ) := by
    have h2 : (((5/2 : ℚ)) : ℝ) ≤ ((leagueBaseGpm league : ℚ) : ℝ) := Rat.cast_le.mpr hb.1
    have h3 : (((5/2 : ℚ)) : ℝ) = 5/2 := by norm_num
    linarith [h2, h3.ge]
  have hbR2 : ((leagueBaseGpm league : ℚ) : ℝ) ≤ (31/10 : ℝ) := by
    have h2 : ((leagueBaseGpm league : ℚ) : ℝ) ≤ (((31/10 : ℚ)) : ℝ) := Rat.cast_le.mpr hb.2
    have h3 : (((31/10 : ℚ)) : ℝ) = 31/10 := by norm_num
    linarith [h2, h3.le]
  have hs1 : (0.36:ℝ) ≤ max 0.36 (min 0.64 (0.5 + 0.12 * Real.tanh (65 / 650))) :=
    le_max_left _ _
  have hs2 : max 0.36 (min 0.64 (0.5 + 0.12 * Real.tanh (65 / 650))) ≤ (0.64:ℝ) :=
    max_le (by norm_num) (min_le_left _ _)
  have hs3 : (0.5:ℝ) < max 0.36 (min 0.64 (0.5 + 0.12 * Real.tanh (65 / 650))) := by
    have ht : 0 < Real.tanh (65 / 650) := tanh_pos_of_pos (by norm_num)
    have hraw : (0.5:ℝ) < 0.5 + 0.12 * Real.tanh (65 / 650) := by nlinarith
    have hmin : (0.5:ℝ) < min 0.64 (0.5 + 0.12 * Real.tanh (65 / 650)) :=
      lt_min (by norm_num) hraw
    exact lt_of_lt_of_le hmin (le_max_right _ _)
  have key := neutral_pair_bounds ((leagueBaseGpm league : ℚ) : ℝ)
    (max 0.36 (min 0.64 (0.5 + 0.12 * Real.tanh (65 / 650)))) hbR1 hbR2 hs1 hs2 hs3
  unfold expectedGoalsAdvanced
  rw [hh, ha]
  simp only [JSVal.toNum]
  rw [if_neg hcond, if_neg hcond,
      show (q : ℝ) + 65 - (q : ℝ) = 65 from by ring]
  exact ⟨_, rfl, key.1, key.2⟩

/-- C6 counterexample: the names `"Constructor"`/`"Constructor"` have
equal resolved strength values — both resolve through the prototype chain
to the same inherited constructor function — yet the pipeline does not
yield `lambdaHome > lambdaAway`: it yields the `NaN` pair (modelled
`none`), so neither the lambda ordering nor any `pHome > pAway`
comparison holds. -/
theorem claim6_counterexample :
    seedOf "Constructor" = seedOf "Constructor" ∧
    seedOf "Constructor" = JSVal.protoFun ∧
    expectedGoalsAdvanced "Constructor" "Constructor" "Premier League" = none :=
  ⟨rfl, by decide, rfl⟩

/-- C6 (amended): for any two team names resolving to equal *numeric*
ratings and any league, home advantage makes `lambdaHome > lambdaAway`,
and consequently both the renormalized and the sharpened 1X2
probabilities satisfy `pHome > pAway`. -/
theorem claim6_home_advantage_amended (home away league : String) (q : ℚ)
    (hh : seedOf home = JSVal.num q) (ha : seedOf away = JSVal.num q) :
    ∃ p : ℝ × ℝ, expectedGoalsAdvanced home away league = some p ∧
      p.2 < p.1 ∧
      (probs1X2 p.1 p.2 12).pA < (probs1X2 p.1 p.2 12).pH ∧
      (sharpen3 (probs1X2 p.1 p.2 12).pH (probs1X2 p.1 p.2 12).pD
        (probs1X2 p.1 p.2 12).pA SHARPEN_TAU_1X2).pA <
      (sharpen3 (probs1X2 p.1 p.2 12).pH (probs1X2 p.1 p.2 12).pD
        (probs1X2 p.1 p.2 12).pA SHARPEN_TAU_1X2).pH := by
  obtain ⟨p, hp, hpos, hlt⟩ := equalSeeds_lams home away league q hh ha
  have hlh : 0 < p.1 := hpos.trans hlt
  have hd := probsDenom_pos p.1 p.2 hlh.le hpos.le
  refine ⟨p, hp, hlt, probs_pA_lt_pH p.1 p.2 hpos hlt, ?_⟩
  exact sharpen_pA_lt_pH _ _ _ _
    (div_pos (pHraw_pos p.1 p.2 hlh hpos) hd)
    (div_pos (pDraw_pos p.1 p.2 hlh.le hpos.le) hd)
    (div_pos (pAraw_pos p.1 p.2 hlh hpos) hd)
    (by norm_num [SHARPEN_TAU_1X2])
    (probs_pA_lt_pH p.1 p.2 hpos hlt)

/-- Witness for the amended C6 at the concrete neutral-strength pair
`"Alpha"`/`"Beta"` (both unknown, numeric rating 1500) in league
`"Foo"`. -/
theorem claim6_witness :
    seedOf "Alpha" = JSVal.num 1500 ∧ seedOf "Beta" = JSVal.num 1500 ∧
    (∃ p : ℝ × ℝ, expectedGoalsAdvanced "Alpha" "Beta" "Foo" = some p ∧
      p.2 < p.1 ∧
      (probs1X2 p.1 p.2 12).pA < (probs1X2 p.1 p.2 12).pH ∧
      (sharpen3 (probs1X2 p.1 p.2 12).pH (probs1X2 p.1 p.2 12).pD
        (probs1X2 p.1 p.2 12).pA SHARPEN_TAU_1X2).pA <
      (sharpen3 (probs1X2 p.1 p.2 12).pH (probs1X2 p.1 p.2 12).pD
        (probs1X2 p.1 p.2 12).pA SHARPEN_TAU_1X2).pH) :=
  ⟨by decide, by decide,
   claim6_home_advantage_amended "Alpha" "Beta" "Foo" 1500 (by decide) (by decide)⟩

lemma exp_neg_1325_lb : ((587:ℝ)/640) ^ 16 ≤ Real.exp (-(1.325:ℝ)) := by
  have h16 : Real.exp (-(1.325:ℝ)) = Real.exp (-(53/640:ℝ)) ^ 16 := by
    rw [← Real.exp_nat_mul]
    norm_num
  rw [h16]
  apply pow_le_pow_left (by norm_num)
  have := Real.add_one_le_exp (-(53/640:ℝ))
  linarith

lemma exp_neg_1325_ub : Real.exp (-(1.325:ℝ)) ≤ ((640:ℝ)/693) ^ 16 := by
  have h16 : Real.exp (-(1.325:ℝ)) = Real.exp (-(53/640:ℝ)) ^ 16 := by
    rw [← Real.exp_nat_mul]
    norm_num
  rw [h16]
  apply pow_le_pow_left (Real.exp_pos _).le
  have h1 := Real.add_one_le_exp ((53/640:ℝ))
  have h2 : Real.exp (-(53/640:ℝ)) = 1 / Real.exp ((53/640:ℝ)) := by
    rw [Real.exp_neg]
    ring
  rw [h2, div_le_div_iff (Real.exp_pos _) (by norm_num)]
  nlinarith [Real.exp_pos ((53/640:ℝ))]

lemma exp_neg_1325_bounds :
    (0.25:ℝ) ≤ Real.exp (-(1.325:ℝ)) ∧ Real.exp (-(1.325:ℝ)) ≤ (0.28:ℝ) := by
  constructor
  · have h : (0.25:ℝ) ≤ ((587:ℝ)/640) ^ 16 := by norm_num
    linarith [exp_neg_1325_lb]
  · have h : ((640:ℝ)/693) ^ 16 ≤ (0.28:ℝ) := by norm_num
    linarith [exp_neg_1325_ub]

lemma pHraw_eq_factor (lh la : ℝ) :
    pHraw lh la 12 = Real.exp (-lh) * Real.exp (-la) *
      (∑ i in Finset.range 13, ∑ j in Finset.range 13,
        if j < i then (lh ^ i / (fac i : ℝ)) * (la ^ j / (fac j : ℝ)) else 0) := by
  unfold pHraw poisPmf
  rw [Finset.mul_sum]
  refine Finset.sum_congr rfl fun i _ => ?_
  rw [Finset.mul_sum]
  refine Finset.sum_congr rfl fun j _ => ?_
  split_ifs
  · ring
  · ring

lemma pDraw_eq_factor (lh la : ℝ) :
    pDraw lh la 12 = Real.exp (-lh) * Real.exp (-la) *
      (∑ i in Finset.range 13, ∑ j in Finset.range 13,
        if i = j then (lh ^ i / (fac i : ℝ)) * (la ^ j / (fac j : ℝ)) else 0) := by
  unfold pDraw poisPmf
  rw [Finset.mul_sum]
  refine Finset.sum_congr rfl fun i _ => ?_
  rw [Finset.mul_sum]
  refine Finset.sum_congr rfl fun j _ => ?_
  split_ifs
  · ring
  · ring

lemma pAraw_eq_factor (lh la : ℝ) :
    pAraw lh la 12 = Real.exp (-lh) * Real.exp (-la) *
      (∑ i in Finset.range 13, ∑ j in Finset.range 13,
        if i < j then (lh ^ i / (fac i : ℝ)) * (la ^ j / (fac j : ℝ)) else 0) := by
  unfold pAraw poisPmf
  rw [Finset.mul_sum]
  refine Finset.sum_congr rfl fun i _ => ?_
  rw [Finset.mul_sum]
  refine Finset.sum_congr rfl fun j _ => ?_
  split_ifs
  · ring
  · ring

/-- The exact rational value of the off-diagonal (home-win) Poisson weight
sum at `lambda = 1.325`, truncated at 12. -/
noncomputable def SHQ : ℝ :=
  703667364390766471840181582611927935049196209340333237 /
    134546524118821877770616832000000000000000000000000000

/-- The exact rational value of the diagonal (draw) Poisson weight sum at
`lambda = 1.325`, truncated at 12. -/
noncomputable def SDQ : ℝ :=
  4868982526385138505455750492675088554561435714363785969 /
    1318006766878255129181552640000000000000000000000000000

set_option maxHeartbeats 4000000 in
lemma SH_val :
    (∑ i in Finset.range 13, ∑ j in Finset.range 13,
      if j < i then ((1.325:ℝ) ^ i / (fac i : ℝ)) * ((1.325:ℝ) ^ j / (fac j : ℝ)) else 0) =
    SHQ := by
  unfold SHQ
  simp only [Finset.sum_range_succ, Finset.sum_range_zero]
  norm_num [fac]

set_option maxHeartbeats 4000000 in
lemma SD_val :
    (∑ i in Finset.range 13, ∑ j in Finset.range 13,
      if i = j then ((1.325:ℝ) ^ i / (fac i : ℝ)) * ((1.325:ℝ) ^ j / (fac j : ℝ)) else 0) =
    SDQ := by
  unfold SDQ
  simp only [Finset.sum_range_succ, Finset.sum_range_zero]
  norm_num [fac]

set_option maxHeartbeats 4000000 in
lemma SA_val :
    (∑ i in Finset.range 13, ∑ j in Finset.range 13,
      if i < j then ((1.325:ℝ) ^ i / (fac i : ℝ)) * ((1.325:ℝ) ^ j / (fac j : ℝ)) else 0) =
    SHQ := by
  unfold SHQ
  simp only [Finset.sum_range_succ, Finset.sum_range_zero]
  norm_num [fac]

lemma pHraw_1325 :
    pHraw 1.325 1.325 12 = Real.exp (-(1.325:ℝ)) * Real.exp (-(1.325:ℝ)) * SHQ := by
  rw [pHraw_eq_factor, SH_val]

lemma pDraw_1325 :
    pDraw 1.325 1.325 12 = Real.exp (-(1.325:ℝ)) * Real.exp (-(1.325:ℝ)) * SDQ := by
  rw [pDraw_eq_factor, SD_val]

lemma pAraw_1325 :
    pAraw 1.325 1.325 12 = Real.exp (-(1.325:ℝ)) * Real.exp (-(1.325:ℝ)) * SHQ := by
  rw [pAraw_eq_factor, SA_val]

lemma probs1X2_1325 :
    (probs1X2 1.325 1.325 12).pH = SHQ / (SHQ + SDQ + SHQ) ∧
    (probs1X2 1.325 1.325 12).pD = SDQ / (SHQ + SDQ + SHQ) ∧
    (probs1X2 1.325 1.325 12).pA = SHQ / (SHQ + SDQ + SHQ) := by
  have hE : (0:ℝ) < Real.exp (-(1.325:ℝ)) * Real.exp (-(1.325:ℝ)) := by positivity
  have hden : probsDenom 1.325 1.325 12 =
      Real.exp (-(1.325:ℝ)) * Real.exp (-(1.325:ℝ)) * (SHQ + SDQ + SHQ) := by
    rw [probsDenom_eq 1.325 1.325 (by norm_num) (by norm_num)]
    unfold probsSum
    rw [pHraw_1325, pDraw_1325, pAraw_1325]
    ring
  unfold probs1X2
  rw [hden, pHraw_1325, pDraw_1325, pAraw_1325]
  refine ⟨?_, ?_, ?_⟩ <;> simp only [mul_div_mul_left _ _ (ne_of_gt hE)]

lemma coef_rpow54_lt (c d a b : ℝ) (hc : 0 ≤ c) (hd : 0 ≤ d) (ha : 0 ≤ a) (hb : 0 ≤ b)
    (h : c ^ 4 * a ^ 5 < d ^ 4 * b ^ 5) : c * a ^ ((5:ℝ)/4) < d * b ^ ((5:ℝ)/4) := by
  have key : ∀ x y : ℝ, 0 ≤ x → 0 ≤ y → x * y ^ ((5:ℝ)/4) = (x ^ 4 * y ^ 5) ^ ((1:ℝ)/4) := by
    intro x y hx hy
    rw [Real.mul_rpow (by positivity) (by positivity)]
    congr 1
    · rw [← Real.rpow_natCast x 4, ← Real.rpow_mul hx]
      norm_num
    · rw [← Real.rpow_natCast y 5, ← Real.rpow_mul hy]
      norm_num
  rw [key c a hc ha, key d b hd hb]
  exact Real.rpow_lt_rpow (by positivity) h (by norm_num)

lemma SHQ_pos : (0:ℝ) < SHQ := by norm_num [SHQ]

lemma SDQ_pos : (0:ℝ) < SDQ := by norm_num [SDQ]

set_option maxHeartbeats 4000000 in
lemma key54_H : 13 * (SHQ / (SHQ + SDQ + SHQ)) ^ ((5:ℝ)/4) <
    31 * (SDQ / (SHQ + SDQ + SHQ)) ^ ((5:ℝ)/4) := by
  have hT : (0:ℝ) < SHQ + SDQ + SHQ := by linarith [SHQ_pos, SDQ_pos]
  refine coef_rpow54_lt 13 31 _ _ (by norm_num) (by norm_num)
    (div_nonneg SHQ_pos.le hT.le) (div_nonneg SDQ_pos.le hT.le) ?_
  rw [div_pow, div_pow, ← mul_div_assoc, ← mul_div_assoc,
      div_lt_div_iff (by positivity) (by positivity)]
  norm_num [SHQ, SDQ]

set_option maxHeartbeats 4000000 in
lemma key54_D : 44 * (SDQ / (SHQ + SDQ + SHQ)) ^ ((5:ℝ)/4) <
    62 * (SHQ / (SHQ + SDQ + SHQ)) ^ ((5:ℝ)/4) := by
  have hT : (0:ℝ) < SHQ + SDQ + SHQ := by linarith [SHQ_pos, SDQ_pos]
  refine coef_rpow54_lt 44 62 _ _ (by norm_num) (by norm_num)
    (div_nonneg SDQ_pos.le hT.le) (div_nonneg SHQ_pos.le hT.le) ?_
  rw [div_pow, div_pow, ← mul_div_assoc, ← mul_div_assoc,
      div_lt_div_iff (by positivity) (by positivity)]
  norm_num [SHQ, SDQ]

lemma sharp_1325_lt :
    (sharpen3 (probs1X2 1.325 1.325 12).pH (probs1X2 1.325 1.325 12).pD
      (probs1X2 1.325 1.325 12).pA SHARPEN_TAU_1X2).pH < 31/75 ∧
    (sharpen3 (probs1X2 1.325 1.325 12).pH (probs1X2 1.325 1.325 12).pD
      (probs1X2 1.325 1.325 12).pA SHARPEN_TAU_1X2).pD < 31/75 ∧
    (sharpen3 (probs1X2 1.325 1.325 12).pH (probs1X2 1.325 1.325 12).pD
      (probs1X2 1.325 1.325 12).pA SHARPEN_TAU_1X2).pA < 31/75 := by
  obtain ⟨hH, hD, hA⟩ := probs1X2_1325
  have hT : (0:ℝ) < SHQ + SDQ + SHQ := by linarith [SHQ_pos, SDQ_pos]
  have hq1 : (0:ℝ) < SHQ / (SHQ + SDQ + SHQ) := div_pos SHQ_pos hT
  have hq2 : (0:ℝ) < SDQ / (SHQ + SDQ + SHQ) := div_pos SDQ_pos hT
  have htau : SHARPEN_TAU_1X2 = (5:ℝ)/4 := by norm_num [SHARPEN_TAU_1X2]
  have ha : (0:ℝ) < (SHQ / (SHQ + SDQ + SHQ)) ^ ((5:ℝ)/4) :=
    Real.rpow_pos_of_pos hq1 _
  have hb : (0:ℝ) < (SDQ / (SHQ + SDQ + SHQ)) ^ ((5:ℝ)/4) :=
    Real.rpow_pos_of_pos hq2 _
  unfold sharpen3 sharpenDenom
  rw [hH, hD, hA, htau]
  rw [if_neg (by linarith : ¬((SHQ / (SHQ + SDQ + SHQ)) ^ ((5:ℝ)/4) +
      (SDQ / (SHQ + SDQ + SHQ)) ^ ((5:ℝ)/4) +
      (SHQ / (SHQ + SDQ + SHQ)) ^ ((5:ℝ)/4) = 0))]
  have hsum : (0:ℝ) < (SHQ / (SHQ + SDQ + SHQ)) ^ ((5:ℝ)/4) +
      (SDQ / (SHQ + SDQ + SHQ)) ^ ((5:ℝ)/4) +
      (SHQ / (SHQ + SDQ + SHQ)) ^ ((5:ℝ)/4) := by linarith
  have h1 := key54_H
  have h2 := key54_D
  refine ⟨?_, ?_, ?_⟩ <;> rw [div_lt_iff hsum] <;> linarith

lemma best1X2_prob_mem (tau lh la : ℝ) :
    (best1X2 tau lh la).2 =
        (sharpen3 (probs1X2 lh la 12).pH (probs1X2 lh la 12).pD
          (probs1X2 lh la 12).pA tau).pH ∨
      (best1X2 tau lh la).2 =
        (sharpen3 (probs1X2 lh la 12).pH (probs1X2 lh la 12).pD
          (probs1X2 lh la 12).pA tau).pD ∨
      (best1X2 tau lh la).2 =
        (sharpen3 (probs1X2 lh la 12).pH (probs1X2 lh la 12).pD
          (probs1X2 lh la 12).pA tau).pA := by
  unfold best1X2
  dsimp only
  rcases sorted3_fst_mem (Prod.snd : String × ℝ → ℝ)
      ("1", (sharpen3 (probs1X2 lh la 12).pH (probs1X2 lh la 12).pD (probs1X2 lh la 12).pA tau).pH)
      ("X", (sharpen3 (probs1X2 lh la 12).pH (probs1X2 lh la 12).pD (probs1X2 lh la 12).pA tau).pD)
      ("2", (sharpen3 (probs1X2 lh la 12).pH (probs1X2 lh la 12).pD (probs1X2 lh la 12).pA tau).pA)
    with h | h | h <;> rw [h]
  · exact Or.inl rfl
  · exact Or.inr (Or.inl rfl)
  · exact Or.inr (Or.inr rfl)

lemma cand1X2_1325_edge : (cand1X2 SHARPEN_TAU_1X2 1.325 1.325).edge < 0.08 := by
  obtain ⟨b1, b2, b3⟩ := sharp_1325_lt
  have hmem := best1X2_prob_mem SHARPEN_TAU_1X2 1.325 1.325
  have hlt : (best1X2 SHARPEN_TAU_1X2 1.325 1.325).2 < 31/75 := by
    rcases hmem with h | h | h <;> rw [h] <;> assumption
  unfold cand1X2
  dsimp only
  linarith

lemma pU25_1325 : pU25of (1.325 + 1.325) =
    Real.exp (-(1.325:ℝ)) * Real.exp (-(1.325:ℝ)) * (5729/800) := by
  unfold pU25of poisPmf
  rw [Finset.sum_range_succ, Finset.sum_range_succ, Finset.sum_range_succ,
      Finset.sum_range_zero,
      show (-(1.325 + 1.325 : ℝ)) = -(1.325:ℝ) + -(1.325:ℝ) from by norm_num,
      Real.exp_add]
  norm_num [fac]
  ring

lemma pU25_1325_bounds :
    (0.42:ℝ) < pU25of (1.325 + 1.325) ∧ pU25of (1.325 + 1.325) < (0.58:ℝ) := by
  obtain ⟨hlo, hhi⟩ := exp_neg_1325_bounds
  have hpos := (Real.exp_pos (-(1.325:ℝ))).le
  rw [pU25_1325]
  constructor <;> nlinarith [sq_nonneg (Real.exp (-(1.325:ℝ)) - 0.25),
    sq_nonneg (Real.exp (-(1.325:ℝ)) - 0.28)]

lemma candTot_1325_edge : (candTot 1.325 1.325).edge < 0.08 := by
  obtain ⟨h1, h2⟩ := pU25_1325_bounds
  unfold candTot
  split_ifs <;> dsimp only <;> linarith

lemma pBTTS_1325 : pBTTSof 1.325 1.325 =
    1 - (Real.exp (-(1.325:ℝ)) + Real.exp (-(1.325:ℝ)) -
      Real.exp (-(1.325:ℝ)) * Real.exp (-(1.325:ℝ))) := by
  unfold pBTTSof
  rw [show (-(1.325 + 1.325 : ℝ)) = -(1.325:ℝ) + -(1.325:ℝ) from by norm_num,
      Real.exp_add]

lemma pBTTS_1325_bounds :
    (0.42:ℝ) < pBTTSof 1.325 1.325 ∧ pBTTSof 1.325 1.325 < (0.58:ℝ) := by
  obtain ⟨hlo, hhi⟩ := exp_neg_1325_bounds
  rw [pBTTS_1325]
  constructor <;> nlinarith [sq_nonneg (Real.exp (-(1.325:ℝ)) - 0.25),
    sq_nonneg (Real.exp (-(1.325:ℝ)) - 0.28)]

lemma candBTTS_1325_edge : (candBTTS 1.325 1.325).edge < 0.08 := by
  obtain ⟨h1, h2⟩ := pBTTS_1325_bounds
  unfold candBTTS
  split_ifs <;> dsimp only <;> linarith

/-- C5: with the default configuration (`tau = 1.25`, `EDGE_MIN = 0.08`),
the market selector on the perfectly balanced rates
`lambdaHome = lambdaAway = 1.325` yields a top prediction whose edge is
strictly below 0.08 and which carries the `"low-edge-fallback"` note. -/
theorem claim5_balanced_low_edge :
    (choiceFrom 1.325 1.325).top.edge < 0.08 ∧
    (choiceFrom 1.325 1.325).top.note = some "low-edge-fallback" := by
  unfold choiceFrom choiceFromTau
  dsimp only
  have h1 := cand1X2_1325_edge
  have h2 := candTot_1325_edge
  have h3 := candBTTS_1325_edge
  have htop : (sorted3 Cand.edge (cand1X2 SHARPEN_TAU_1X2 1.325 1.325)
      (candTot 1.325 1.325) (candBTTS 1.325 1.325)).1.edge < 0.08 := by
    rcases sorted3_fst_mem Cand.edge (cand1X2 SHARPEN_TAU_1X2 1.325 1.325)
        (candTot 1.325 1.325) (candBTTS 1.325 1.325) with h | h | h <;>
      rw [h] <;> assumption
  have hcond : (sorted3 Cand.edge (cand1X2 SHARPEN_TAU_1X2 1.325 1.325)
      (candTot 1.325 1.325) (candBTTS 1.325 1.325)).1.edge < EDGE_MIN := htop
  rw [if_pos hcond]
  exact ⟨htop, rfl⟩
